import Mathlib

set_option maxRecDepth 10000

/-!
Verification of the KnowledgeVault retrieval/ranking/summarization core.

Each definition below is a shallow embedding of a function of the
repository (TypeScript / React Native).  Conventions used throughout:

* JavaScript strings are modelled as Lean `String`s; the ASCII-only string
  operations of the source (`toLowerCase`, `\w`, `[A-Z][a-z]+`, ...) are
  modelled with the corresponding ASCII operations on `Char`.
* JavaScript numbers are modelled as `ℚ` wherever the source only adds,
  multiplies, divides and compares finite values (every float literal of
  the source is a rational number), and as `ℝ` where `Math.sqrt` or
  `Math.log` is involved.
* `Array.prototype.sort` (stable since ES2019) with a comparator is
  modelled by `List.insertionSort` with the corresponding "may precede"
  relation, which computes exactly the stable sort.
* `while` loops are modelled by structural recursion on an explicit
  counter that mirrors the loop bound of the source.
-/

/-! ## Generic string helpers shared by several source files -/

/-- Model of `Array.prototype.join(sep)`. -/
def joinSep (sep : String) : List String → String
  | [] => ""
  | [x] => x
  | x :: y :: xs => x ++ sep ++ joinSep sep (y :: xs)

/-- Worker for `splitRuns`: scans the characters left to right; `inSep`
records whether we are inside a separator run, `cur` holds the (reversed)
characters of the piece being accumulated. -/
def splitRunsGo (p : Char → Bool) : List Char → Bool → List Char → List String
  | [], _, cur => [String.mk cur.reverse]
  | c :: rest, inSep, cur =>
    if p c then
      if inSep then splitRunsGo p rest true cur
      else String.mk cur.reverse :: splitRunsGo p rest true []
    else splitRunsGo p rest false (c :: cur)

/-- Model of JavaScript `s.split(regex)` where `regex` matches maximal
nonempty runs of characters satisfying `p` (e.g. `/\s+/` or `/[.!?]+/`).
As in JavaScript, leading/trailing separators produce empty pieces and
`""` splits to `[""]`. -/
def splitRuns (p : Char → Bool) (l : List Char) : List String :=
  splitRunsGo p l false []

/-- Character-wise transformation of a string (model of the character-wise
JavaScript string operations; kept on `List Char` so that it evaluates). -/
def mapStr (f : Char → Char) (s : String) : String := String.mk (s.data.map f)

/-- Model of `String.prototype.trim`: drop whitespace from both ends. -/
def trimStr (s : String) : String :=
  String.mk (((s.data.dropWhile Char.isWhitespace).reverse.dropWhile Char.isWhitespace).reverse)

/-- ASCII lower-casing, model of `String.prototype.toLowerCase` on the
ASCII strings this app manipulates. -/
def lowerStr (s : String) : String := mapStr Char.toLower s

/-- `startsWith` on character lists. -/
def listStartsWith : List Char → List Char → Bool
  | _, [] => true
  | [], _ :: _ => false
  | a :: as, b :: bs => a == b && listStartsWith as bs

/-- Substring occurrence on character lists. -/
def listContainsSub : List Char → List Char → Bool
  | [], needle => needle.isEmpty
  | c :: t, needle => listStartsWith (c :: t) needle || listContainsSub t needle

/-- Model of JavaScript `s.includes(sub)`. -/
def strIncludes (s sub : String) : Bool := listContainsSub s.data sub.data

/-! ## Tokenizer (src/src/embedding/tokenizer.ts)

The vocabulary `vocab.json` is an asset of the repository; the tokenizer
is parameterised over it as a partial map from token strings to ids
(JavaScript `vocab[token]`, with `none` playing the role of `undefined`).
-/

def CLS_TOKEN : String := "[CLS]"

def SEP_TOKEN : String := "[SEP]"

def UNK_TOKEN : String := "[UNK]"

def PAD_TOKEN : String := "[PAD]"

/-- Maximum sequence length for MiniLM. -/
def MAX_LENGTH : ℕ := 128

/-- Characters the tokenizer keeps: `\w` (ASCII alphanumerics and `_`),
whitespace, and the basic punctuation `. , ! ? ' -`. -/
def allowedChar (c : Char) : Bool :=
  c.isAlphanum || c == '_' || c.isWhitespace ||
    c == '.' || c == ',' || c == '!' || c == '?' || c == '\'' || c == '-'

/-- Model of `cleanText`: lowercase, collapse whitespace runs to a single
space and trim, then replace every character outside the whitelist by a
space. -/
def cleanText (text : String) : String :=
  let lowered := lowerStr text
  let collapsed := trimStr (joinSep " " (splitRuns Char.isWhitespace lowered.data))
  mapStr (fun c => if allowedChar c then c else ' ') collapsed

/-- Inner loop of `wordPieceTokenize`: starting at offset `start`, try the
candidate substring of each length from the argument down to 1 (the source
decrements `end`), prefixing `##` when `start > 0`, and return the first
candidate found in the vocabulary together with the new offset. -/
def findLongest (vocab : String → Option ℕ) (word : List Char) (start : ℕ) :
    ℕ → Option (String × ℕ)
  | 0 => none
  | n + 1 =>
    let substr := String.mk ((word.drop start).take (n + 1))
    let cand := if 0 < start then "##" ++ substr else substr
    if (vocab cand).isSome then some (cand, start + (n + 1))
    else findLongest vocab word start n

/-- Outer loop of `wordPieceTokenize` over the offset `start`.  The fuel
argument mirrors the loop bound: each iteration advances `start` by at
least one, so `word.length` iterations suffice. -/
def wpGo (vocab : String → Option ℕ) (word : List Char) : ℕ → ℕ → List String
  | _, 0 => []
  | start, fuel + 1 =>
    if start < word.length then
      match findLongest vocab word start (word.length - start) with
      | none => UNK_TOKEN :: wpGo vocab word (start + 1) fuel
      | some (tok, newStart) => tok :: wpGo vocab word newStart fuel
    else []

/-- Model of `wordPieceTokenize`: greedy longest-match subword splitting,
emitting `[UNK]` and advancing one character when nothing matches. -/
def wordPieceTokenize (vocab : String → Option ℕ) (word : String) : List String :=
  wpGo vocab word.data 0 word.data.length

/-- The `for (const word of words)` loop of `tokenize`: push each word's
pieces, stopping after any word once the token count reaches
`MAX_LENGTH - 1` (the check runs only after a whole word was pushed). -/
def accumTokens (vocab : String → Option ℕ) : List String → List String → List String
  | [], tokens => tokens
  | w :: ws, tokens =>
    let tokens' := tokens ++ wordPieceTokenize vocab w
    if MAX_LENGTH - 1 ≤ tokens'.length then tokens' else accumTokens vocab ws tokens'

/-- Output of the tokenizer (`TokenizerOutput` in src/src/utils/types.ts).
Ids are `Option ℕ` because a token absent from the vocabulary maps to
JavaScript `undefined` when even `[UNK]` is missing. -/
structure TokenizerOutput where
  input_ids : List (Option ℕ)
  attention_mask : List ℕ

/-- Model of `tokens.map(...)` in `tokenize`: a token's id, falling back
to the id of `[UNK]` when the token is not in the vocabulary. -/
def tokenId (vocab : String → Option ℕ) (token : String) : Option ℕ :=
  match vocab token with
  | some id => some id
  | none => vocab UNK_TOKEN

/-- Model of `tokenize` (src/src/embedding/tokenizer.ts): clean, split into
words, word-piece each word with mid-loop truncation, wrap in
`[CLS]`/`[SEP]`, map to ids, and pad ids with the `[PAD]` id and the mask
with 0 until both reach `MAX_LENGTH`. -/
def tokenize (vocab : String → Option ℕ) (text : String) : TokenizerOutput :=
  let cleanedText := cleanText text
  let words := (splitRuns Char.isWhitespace cleanedText.data).filter (fun w => 0 < w.length)
  let tokens := accumTokens vocab words [CLS_TOKEN] ++ [SEP_TOKEN]
  let input_ids := tokens.map (tokenId vocab)
  let attention_mask := List.replicate input_ids.length 1
  let padId := vocab PAD_TOKEN
  { input_ids := input_ids ++ List.replicate (MAX_LENGTH - input_ids.length) padId
    attention_mask := attention_mask ++ List.replicate (MAX_LENGTH - input_ids.length) 0 }

/-- Modelled from the spec: the vocabulary asset `vocab.json` imported by
the tokenizer is not part of the sources; the spec's scenario vocabulary
(section 8) is used as the concrete vocabulary for evaluation. -/
def scenarioVocab : String → Option ℕ := fun t =>
  if t = "[CLS]" then some 0
  else if t = "[SEP]" then some 1
  else if t = "[UNK]" then some 2
  else if t = "[PAD]" then some 3
  else if t = "hello" then some 4
  else if t = "world" then some 5
  else none

/-- Input on which the tokenizer's truncation check overshoots: 125
one-character words followed by one three-character word. -/
def overflowText : String := joinSep " " (List.replicate 125 "z" ++ ["zzz"])

/-! ## Vector math (src/utils/similarity.ts)

Float vectors are idealised as `List ℝ`; `Math.sqrt` is `Real.sqrt`,
which makes the definitions of this section noncomputable (their zero
tests are de-idealised in the theorems below). -/

/-- Model of `dotProduct`: sum of elementwise products, failing with a
length-mismatch error when the lengths differ. -/
def dotProduct (vecA vecB : List ℝ) : Except String ℝ :=
  if vecA.length ≠ vecB.length then .error "Vectors must have the same length"
  else .ok (List.zipWith (fun a b => a * b) vecA vecB).sum

/-- Sum of squares of a vector (the accumulator of `magnitude`). -/
def sumSq (vec : List ℝ) : ℝ := (vec.map (fun x => x * x)).sum

/-- Model of `magnitude`: the L2 norm, `Math.sqrt` of the sum of squares. -/
noncomputable def magnitude (vec : List ℝ) : ℝ := Real.sqrt (sumSq vec)

open Classical in
/-- Model of `cosineSimilarity`: fails on a length mismatch, returns 0
when either magnitude is 0, and otherwise divides the dot product by the
product of the magnitudes. -/
noncomputable def cosineSimilarity (vecA vecB : List ℝ) : Except String ℝ :=
  if vecA.length ≠ vecB.length then .error "Vectors must have the same length"
  else
    match dotProduct vecA vecB with
    | .error e => .error e
    | .ok dot =>
      if magnitude vecA = 0 ∨ magnitude vecB = 0 then .ok 0
      else .ok (dot / (magnitude vecA * magnitude vecB))

/-! ## L2 normalization (src/utils/normalize.ts) -/

/-- Model of `l2Norm`: identical to `magnitude`. -/
noncomputable def l2Norm (vec : List ℝ) : ℝ := Real.sqrt (sumSq vec)

open Classical in
/-- Model of `l2Normalize`: divide elementwise by the norm, returning a
same-length vector of zeros when the norm is 0. -/
noncomputable def l2Normalize (vec : List ℝ) : List ℝ :=
  let norm := l2Norm vec
  if norm = 0 then vec.map (fun _ => 0)
  else vec.map (fun v => v / norm)

/-! ## Data model (src/utils/types.ts) -/

/-- A stored note.  Embedding components are `ℚ` (every stored float is a
rational); similarity scores over them are likewise `ℚ`. -/
structure Note where
  id : ℕ
  text : String
  embedding : List ℚ
  timestamp : ℕ
deriving DecidableEq

/-- A retrieval result: a note together with its (plain or hybrid) score. -/
structure RetrievalResult where
  note : Note
  similarity : ℚ
deriving DecidableEq

instance : Inhabited Note := ⟨⟨0, "", [], 0⟩⟩

instance : Inhabited RetrievalResult := ⟨⟨default, 0⟩⟩

/-- The built RAG context (`BuiltContext` in src/utils/types.ts). -/
structure BuiltContext where
  context : String
  supportingNotes : List Note
deriving DecidableEq

/-! ## Ranker (src/src/rag/rank.ts) -/

/-- The order realised by `sort((a, b) => b.similarity - a.similarity)`:
`a` may precede `b` iff `a`'s score is not smaller.  With a stable sort
this reproduces the JavaScript result exactly. -/
def simOrder (a b : RetrievalResult) : Prop := b.similarity ≤ a.similarity

instance : DecidableRel simOrder := fun a b =>
  inferInstanceAs (Decidable (b.similarity ≤ a.similarity))

instance : IsTotal RetrievalResult simOrder := ⟨fun a b => le_total b.similarity a.similarity⟩

instance : IsTrans RetrievalResult simOrder := ⟨fun _ _ _ h1 h2 => le_trans h2 h1⟩

/-- Model of `sortBySimilarity`: stable sort, highest similarity first. -/
def sortBySimilarity (results : List RetrievalResult) : List RetrievalResult :=
  List.insertionSort simOrder results

/-- Model of `topK`: empty for `k = 0` (the source's `k <= 0` guard),
otherwise the first `k` elements of the sorted list. -/
def topK (results : List RetrievalResult) (k : ℕ) : List RetrievalResult :=
  if k = 0 then []
  else (sortBySimilarity results).take k

/-- Model of `topKWithThreshold`: sort, keep scores at or above the
threshold, then take the first `k`. -/
def topKWithThreshold (results : List RetrievalResult) (k : ℕ) (minSimilarity : ℚ) :
    List RetrievalResult :=
  (((sortBySimilarity results).filter (fun r => minSimilarity ≤ r.similarity)).take k)

/-- Model of `textOverlap`: Jaccard similarity of the lowercased
whitespace-separated word sets of the two texts. -/
def textOverlap (textA textB : String) : ℚ :=
  let wordsA := (splitRuns Char.isWhitespace (lowerStr textA).data).dedup
  let wordsB := (splitRuns Char.isWhitespace (lowerStr textB).data).dedup
  let intersection := (wordsA.filter (fun w => w ∈ wordsB)).length
  let union := wordsA.length + wordsB.length - intersection
  if 0 < union then (intersection : ℚ) / (union : ℚ) else 0

/-- Model of `diversityScore`: 1 when nothing is selected yet, otherwise
one minus the minimum text overlap with the selected results. -/
def diversityScore (candidate : RetrievalResult) (selected : List RetrievalResult) : ℚ :=
  if selected = [] then 1
  else 1 - selected.foldl (fun minSim s => min minSim (textOverlap candidate.note.text s.note.text)) 1

/-- One step of the candidate scan of `mmrRank`: the state is the running
index, the best index so far and the best score so far (`none` models the
initial `-Infinity`); a candidate wins only on strict improvement, so the
first maximum is kept. -/
def bestStep (f : RetrievalResult → ℚ) (st : ℕ × ℕ × Option ℚ) (r : RetrievalResult) :
    ℕ × ℕ × Option ℚ :=
  match st with
  | (i, _, none) => (i + 1, i, some (f r))
  | (i, bi, some b) => if b < f r then (i + 1, i, some (f r)) else (i + 1, bi, some b)

/-- The candidate-selection scan of `mmrRank`: the index of the first
candidate realising the maximal score. -/
def bestIdx (f : RetrievalResult → ℚ) (l : List RetrievalResult) : ℕ :=
  (l.foldl (bestStep f) (0, 0, none)).2.1

/-- The `while` loop of `mmrRank`.  The fuel argument is `k` minus the
number of selected results, which strictly decreases every iteration of
the source loop. -/
def mmrLoop (lambda : ℚ) (selected remaining : List RetrievalResult) :
    ℕ → List RetrievalResult
  | 0 => selected
  | fuel + 1 =>
    if remaining = [] then selected
    else
      let bi := bestIdx
        (fun c => lambda * c.similarity + (1 - lambda) * diversityScore c selected) remaining
      mmrLoop lambda (selected ++ [remaining.getD bi default]) (remaining.eraseIdx bi) fuel

/-- Model of `mmrRank`: Maximal-Marginal-Relevance selection of `k`
results balancing relevance (`lambda`) and diversity (`1 - lambda`). -/
def mmrRank (results : List RetrievalResult) (k : ℕ) (lambda : ℚ) : List RetrievalResult :=
  if results = [] ∨ k = 0 then []
  else mmrLoop lambda [] (sortBySimilarity results) k

/-! ## Retriever (src/src/rag/retrieve.ts, provided as an unnamed source)

The retriever embeds the query through the external inference engine and
scores every stored note.  The query embedding and the cosine-similarity
scoring function are held fixed as parameters (`cosSim` stands for
`cosineSimilarity` applied to the already-embedded query): the ranking
claims below hold for every value of these parameters. -/

/-- Model of the retriever's `extractKeywords`: lowercase, strip non-word
characters to spaces, split on whitespace, keep tokens longer than 2
characters, deduplicate (`Set` keeps first occurrences). -/
def extractKeywordsList (text : String) : List String :=
  (((splitRuns Char.isWhitespace
      (mapStr (fun c => if c.isAlphanum || c == '_' || c.isWhitespace then c else ' ')
        (lowerStr text)).data)).filter (fun w => 2 < w.length)).dedup

/-- Model of `keywordOverlapScore`: fraction of query keywords occurring
in the note's keyword set (0 when the query has no keywords). -/
def keywordOverlapScore (queryKeywords : List String) (noteText : String) : ℚ :=
  let noteKeywords := extractKeywordsList noteText
  let matchCount := (queryKeywords.filter (fun kw => kw ∈ noteKeywords)).length
  if 0 < queryKeywords.length then (matchCount : ℚ) / (queryKeywords.length : ℚ) else 0

/-- Model of `hasKeywordMatch`: does the lowercased note text contain at
least one query keyword as a substring? -/
def hasKeywordMatch (queryKeywords : List String) (noteText : String) : Bool :=
  queryKeywords.any (fun kw => strIncludes (lowerStr noteText) kw)

/-- Model of `retrieveNotes`: score every note by cosine similarity with
the query embedding and sort descending; empty store yields `[]`. -/
def retrieveNotes (cosSim : List ℚ → List ℚ → ℚ) (queryEmbedding : List ℚ)
    (notes : List Note) : List RetrievalResult :=
  if notes = [] then []
  else
    List.insertionSort simOrder
      (notes.map (fun note => ⟨note, cosSim queryEmbedding note.embedding⟩))

/-- Model of `retrieveNotesHybrid`: blend cosine similarity (weight
`semanticWeight`) with keyword overlap (weight `1 - semanticWeight`) and
sort descending. -/
def retrieveNotesHybrid (cosSim : List ℚ → List ℚ → ℚ) (queryEmbedding : List ℚ)
    (query : String) (notes : List Note) (semanticWeight : ℚ) : List RetrievalResult :=
  let queryKeywords := extractKeywordsList query
  if notes = [] then []
  else
    let keywordWeight := 1 - semanticWeight
    List.insertionSort simOrder
      (notes.map (fun note =>
        ⟨note, semanticWeight * cosSim queryEmbedding note.embedding
          + keywordWeight * keywordOverlapScore queryKeywords note.text⟩))

/-- Model of `retrieveNotesStrict`: hybrid retrieval with weight 0.5,
keeping only results with at least one keyword match and a score at or
above `minSimilarity`. -/
def retrieveNotesStrict (cosSim : List ℚ → List ℚ → ℚ) (queryEmbedding : List ℚ)
    (query : String) (notes : List Note) (minSimilarity : ℚ) : List RetrievalResult :=
  let queryKeywords := extractKeywordsList query
  let results := retrieveNotesHybrid cosSim queryEmbedding query notes (1 / 2)
  results.filter (fun r =>
    hasKeywordMatch queryKeywords r.note.text && decide (minSimilarity ≤ r.similarity))

/-! ## Context builder (src/src/rag/contextBuilder.ts) -/

/-- Sentence-ending punctuation `[.!?]`. -/
def isSentencePunct (c : Char) : Bool := c == '.' || c == '!' || c == '?'

/-- ASCII `[A-Z]`. -/
def isUpperAZ (c : Char) : Bool := 'A' ≤ c && c ≤ 'Z'

/-- ASCII `[a-z]`. -/
def isLowerAZ (c : Char) : Bool := 'a' ≤ c && c ≤ 'z'

/-- Scan counting the non-overlapping, leftmost-greedy matches of the
regular expression `[A-Z][a-z]+`; `inWord` records that we are inside the
lower-case tail of a match. -/
def countCapGo : List Char → Bool → ℕ
  | [], _ => 0
  | c :: rest, inWord =>
    if inWord && isLowerAZ c then countCapGo rest true
    else if isUpperAZ c && (match rest with | d :: _ => isLowerAZ d | [] => false) then
      1 + countCapGo rest true
    else countCapGo rest false

/-- Model of `sentence.match(/[A-Z][a-z]+/g)`: the number of matches. -/
def countCapWords (s : String) : ℕ := countCapGo s.data false

/-- Model of `sentence.split(/\s+/).length`. -/
def wordCount (sentence : String) : ℕ :=
  (splitRuns Char.isWhitespace sentence.data).length

/-- The fixed key-phrase list of `extractKeySentences`. -/
def keyPhrases : List String := ["important", "key", "main", "note", "remember", "summary"]

/-- The sentence-scoring block of `extractKeySentences`, accumulated in
source order: first-sentence bonus, medium-length bonus, one point for
each key phrase contained in the lowercased sentence, and a capped bonus
for capitalized words. -/
def codeSentenceScore (sentence : String) (index : ℕ) : ℚ :=
  let score : ℚ := 0
  let score := if index = 0 then score + 3 else score
  let words := wordCount sentence
  let score := if 5 ≤ words ∧ words ≤ 30 then score + 2 else score
  let score := keyPhrases.foldl
    (fun sc phrase => if strIncludes (lowerStr sentence) phrase then sc + 1 else sc) score
  let capCount := countCapWords sentence
  let score := if 0 < capCount then score + min ((capCount : ℚ) * (1 / 2)) 2 else score
  score

/-- A sentence with its score and original position, as built inside
`extractKeySentences`. -/
structure ScoredSentence where
  sentence : String
  score : ℚ
  index : ℕ
deriving DecidableEq

/-- The order realised by the comparator
`(a, b) => b.score - a.score or a.index - b.index`: score descending,
ties by original position ascending. -/
def scoreOrder (a b : ScoredSentence) : Prop :=
  b.score < a.score ∨ (a.score = b.score ∧ a.index ≤ b.index)

instance : DecidableRel scoreOrder := fun a b =>
  inferInstanceAs (Decidable (b.score < a.score ∨ (a.score = b.score ∧ a.index ≤ b.index)))

/-- The order realised by the comparator `(a, b) => a.index - b.index`. -/
def idxOrder (a b : ScoredSentence) : Prop := a.index ≤ b.index

instance : DecidableRel idxOrder := fun a b => inferInstanceAs (Decidable (a.index ≤ b.index))

/-- The sentence fragments `extractKeySentences` works on: split on runs
of `[.!?]`, trim, drop fragments of at most 10 characters. -/
def keyFragments (text : String) : List String :=
  ((splitRuns isSentencePunct text.data).map trimStr).filter (fun s => 10 < s.length)

/-- Model of `extractKeySentences`: the whole trimmed text when no
fragment survives, all fragments when at most `maxSentences` survive, and
otherwise the `maxSentences` best-scoring fragments restored to original
order. -/
def extractKeySentences (text : String) (maxSentences : ℕ) : List String :=
  let sentences := keyFragments text
  if sentences.length = 0 then [trimStr text]
  else if sentences.length ≤ maxSentences then sentences
  else
    let scored := sentences.enum.map (fun p =>
      ScoredSentence.mk p.2 (codeSentenceScore p.2 p.1) p.1)
    let sorted := List.insertionSort scoreOrder scored
    (List.insertionSort idxOrder (sorted.take maxSentences)).map (fun s => s.sentence)

/-- The relevance label of a context block. -/
def relevanceLabel (similarity : ℚ) : String :=
  if 7 / 10 < similarity then "High" else if 1 / 2 < similarity then "Medium" else "Low"

/-- One labeled context block (loop body of `buildContext`). -/
def blockOf (i : ℕ) (r : RetrievalResult) : String :=
  "[Source " ++ toString (i + 1) ++ " - " ++ relevanceLabel r.similarity ++ " relevance]\n"
    ++ joinSep ". " (extractKeySentences r.note.text 2) ++ "."

/-- The `for` loop of `buildContext`, carrying the source index. -/
def blocksFrom (i : ℕ) : List RetrievalResult → List String
  | [] => []
  | r :: rs => blockOf i r :: blocksFrom (i + 1) rs

/-- Model of `buildContext`: one block per top-`k` result, joined with
blank lines; empty context for no results. -/
def buildContext (results : List RetrievalResult) (k : ℕ) : BuiltContext :=
  let topResults := topK results k
  if topResults.length = 0 then ⟨"", []⟩
  else ⟨joinSep "\n\n" (blocksFrom 0 topResults), topResults.map (fun r => r.note)⟩

/-! ## Summarizer (src/src/rag/summarizer.ts) -/

/-- Is the most recently read character (head of the reversed
accumulator) sentence-ending punctuation? -/
def headIsPunct : List Char → Bool
  | [] => false
  | c :: _ => isSentencePunct c

/-- Scan realising `text.split(/(?<=[.!?])\s+/)`: a separator is a
maximal whitespace run whose first character is immediately preceded by
`.`, `!` or `?`; `inSep` records that we are inside such a run. -/
def splitSentGo : List Char → Bool → List Char → List String
  | [], _, cur => [String.mk cur.reverse]
  | c :: rest, inSep, cur =>
    if inSep then
      if c.isWhitespace then splitSentGo rest true []
      else splitSentGo rest false [c]
    else if c.isWhitespace && headIsPunct cur then
      String.mk cur.reverse :: splitSentGo rest true []
    else splitSentGo rest false (c :: cur)

/-- Model of `splitIntoSentences`: split after sentence-ending
punctuation followed by whitespace, trim, drop fragments of at most 5
characters. -/
def splitIntoSentences (text : String) : List String :=
  ((splitSentGo text.data false []).map trimStr).filter (fun s => 5 < s.length)

/-- Model of the summarizer's word `tokenize`: lowercase, strip non-word
characters to spaces, split on whitespace, keep tokens longer than 2. -/
def tokenizeWords (text : String) : List String :=
  (splitRuns Char.isWhitespace
    (mapStr (fun c => if c.isAlphanum || c == '_' || c.isWhitespace then c else ' ')
      (lowerStr text)).data).filter (fun w => 2 < w.length)

/-- Model of `computeTF` looked up at `w`: the count of `w` normalized by
the word count (normalization skipped for an empty document). -/
def tfVal (words : List String) (w : String) : ℚ :=
  if words.length = 0 then (words.count w : ℚ)
  else (words.count w : ℚ) / (words.length : ℚ)

/-- Number of sentences whose (deduplicated) word set contains `w`
(the `wordDocCount` map of `computeIDF`). -/
def docFreq (sentences : List String) (w : String) : ℕ :=
  (sentences.filter (fun s => w ∈ tokenizeWords s)).length

open Classical in
/-- Model of the JavaScript idiom `x || 1` on numbers: 1 when `x` is 0. -/
noncomputable def jsOrOne (x : ℝ) : ℝ := if x = 0 then 1 else x

open Classical in
/-- Model of `idf.get(word) || 1` in `computeSentenceScore`: the IDF map
contains exactly the words occurring in some sentence, with value
`log((N + 1) / (df + 1)) + 1`. -/
noncomputable def idfScore (sentences : List String) (w : String) : ℝ :=
  if 0 < docFreq sentences w then
    jsOrOne (Real.log (((sentences.length : ℝ) + 1) / ((docFreq sentences w : ℝ) + 1)) + 1)
  else 1

open Classical in
/-- Model of `computeSentenceScore`: sum of `tf * idf` over the distinct
words of the sentence, divided by the square root of the word count. -/
noncomputable def computeSentenceScore (sentences : List String) (sentence : String) : ℝ :=
  let words := tokenizeWords sentence
  let score := (words.dedup.map (fun w => ((tfVal words w : ℚ) : ℝ) * idfScore sentences w)).sum
  let lengthFactor := Real.sqrt (words.length : ℝ)
  if 0 < lengthFactor then score / lengthFactor else 0

/-- A sentence with its TF-IDF score and original position, as built
inside `summarize`. -/
structure SummarySentence where
  sentence : String
  score : ℝ
  index : ℕ

/-- The order realised by `sort((a, b) => b.score - a.score)` in
`summarize`: score descending, ties in discovery order (stable sort). -/
def sumOrder (a b : SummarySentence) : Prop := b.score ≤ a.score

noncomputable instance : DecidableRel sumOrder := fun _ _ => Classical.propDecidable _

/-- The order realised by `sort((a, b) => a.index - b.index)` in
`summarize`. -/
def sumIdxOrder (a b : SummarySentence) : Prop := a.index ≤ b.index

instance : DecidableRel sumIdxOrder := fun a b => inferInstanceAs (Decidable (a.index ≤ b.index))

/-- Model of `summarize`: the trimmed text when no sentence survives the
split, the sentences joined by spaces when at most `numSentences`
survive, and otherwise the top TF-IDF-scored sentences restored to
original order. -/
noncomputable def summarize (text : String) (numSentences : ℕ) : String :=
  let sentences := splitIntoSentences text
  if sentences.length = 0 then trimStr text
  else if sentences.length ≤ numSentences then joinSep " " sentences
  else
    let scoredSentences := sentences.enum.map (fun p =>
      SummarySentence.mk p.2 (computeSentenceScore sentences p.2) p.1)
    let sorted := List.insertionSort sumOrder scoredSentences
    joinSep " "
      ((List.insertionSort sumIdxOrder (sorted.take numSentences)).map (fun s => s.sentence))

/-! ## Spec-side definitions for the refinement claims

These restate, in the words of the specification, the scoring and
selection that claim C2 describes; the theorems below compare them with
the embedded source functions. -/

/-- Per claim C2: a sentence scores 3 if it is the first sentence, 2 if
its word count is between 5 and 30 inclusive, 1 for each key phrase
occurring as a case-insensitive substring, and half a point per
capitalized-word pattern capped at a 2-point bonus. -/
def specSentenceScore (sentence : String) (index : ℕ) : ℚ :=
  (if index = 0 then 3 else 0)
    + (if 5 ≤ wordCount sentence ∧ wordCount sentence ≤ 30 then 2 else 0)
    + ((keyPhrases.filter (fun p => strIncludes (lowerStr sentence) p)).length : ℚ)
    + min ((countCapWords sentence : ℚ) * (1 / 2)) 2

/-- Per claim C2: score every fragment, sort by score descending with
ties broken by original position ascending, take the top `maxSentences`,
and re-sort the selection by original position. -/
def specKeySentences (text : String) (maxSentences : ℕ) : List String :=
  let sentences := keyFragments text
  let scored := sentences.enum.map (fun p =>
    ScoredSentence.mk p.2 (specSentenceScore p.2 p.1) p.1)
  let sorted := List.insertionSort scoreOrder scored
  (List.insertionSort idxOrder (sorted.take maxSentences)).map (fun s => s.sentence)

/-! ## Helper lemmas -/

/-- Looking up a position whose mask entry is 0 in a padded id list hits
the padding value. -/
theorem padded_lookup (core : List (Option ℕ)) (pad : Option ℕ) (L i : ℕ)
    (h : (List.replicate core.length (1 : ℕ) ++ List.replicate (L - core.length) 0)[i]?
      = some 0) :
    (core ++ List.replicate (L - core.length) pad)[i]? = some pad := by
  rw [List.getElem?_append] at h ⊢
  simp only [List.length_replicate] at h
  by_cases hi : i < core.length
  · rw [if_pos hi, List.getElem?_replicate, if_pos hi] at h
    simp at h
  · rw [if_neg hi] at h ⊢
    rw [List.getElem?_replicate] at h ⊢
    by_cases hj : i - core.length < L - core.length
    · rw [if_pos hj]
    · rw [if_neg hj] at h
      simp at h

/-! ## C5: padding invariant of the tokenizer -/

/-- Claim C5: for every input text, at every position of the tokenizer
output where the attention mask is 0, the id list carries the vocabulary
id of the `[PAD]` token. -/
theorem tokenize_pad_invariant (vocab : String → Option ℕ) (text : String) (i : ℕ)
    (h : (tokenize vocab text).attention_mask[i]? = some 0) :
    (tokenize vocab text).input_ids[i]? = some (vocab PAD_TOKEN) :=
  padded_lookup
    ((accumTokens vocab
        ((splitRuns Char.isWhitespace (cleanText text).data).filter (fun w => 0 < w.length))
        [CLS_TOKEN] ++ [SEP_TOKEN]).map (tokenId vocab))
    (vocab PAD_TOKEN) MAX_LENGTH i h

/-- Witness for C5: the spec's scenario, `"hello world"`, at the first
padding position. -/
theorem tokenize_pad_invariant_witness :
    (tokenize scenarioVocab "hello world").attention_mask[5]? = some 0 ∧
    (tokenize scenarioVocab "hello world").input_ids[5]? = some (scenarioVocab PAD_TOKEN) :=
  ⟨by decide, tokenize_pad_invariant scenarioVocab "hello world" 5 (by decide)⟩

/-! ## C1: the fixed-length claim and the truncation bug -/

/-- Claim C1 fails on the code: on 125 one-character words followed by a
three-character word (scenario vocabulary), the truncation check fires
only after the last word has pushed the token count to 129, `[SEP]` makes
it 130, and the padding loop never shortens, so both outputs have length
130 instead of `MAX_LENGTH = 128`. -/
theorem tokenize_length_overflow :
    (tokenize scenarioVocab overflowText).input_ids.length = 130 ∧
    (tokenize scenarioVocab overflowText).attention_mask.length = 130 ∧
    ¬ ((tokenize scenarioVocab overflowText).input_ids.length = MAX_LENGTH ∧
       (tokenize scenarioVocab overflowText).attention_mask.length = MAX_LENGTH) := by
  refine ⟨by decide, by decide, ?_⟩
  intro hc
  have h1 : (tokenize scenarioVocab overflowText).input_ids.length = 130 := by decide
  rw [hc.1] at h1
  exact absurd h1 (by decide)

/-! ## C3: MMR with lambda 1 is plain top-K -/

/-- Once the best score `b` is at least every remaining candidate's score,
the scan never updates the best index. -/
theorem bestStep_foldl_fixed (f : RetrievalResult → ℚ) (l : List RetrievalResult) :
    ∀ (i bi : ℕ) (b : ℚ), (∀ r ∈ l, f r ≤ b) →
      l.foldl (bestStep f) (i, bi, some b) = (i + l.length, bi, some b) := by
  induction l with
  | nil => intro i bi b _; simp
  | cons x xs ih =>
    intro i bi b h
    simp only [List.foldl_cons, bestStep]
    rw [if_neg (not_lt.mpr (h x (by simp)))]
    rw [ih (i + 1) bi b (fun r hr => h r (by simp [hr]))]
    rw [List.length_cons, Nat.add_comm xs.length 1, ← Nat.add_assoc]

/-- When the head of the list already realises the maximum, the selected
index is 0 (the source's strict-improvement test keeps the first best). -/
theorem bestIdx_cons_of_max (f : RetrievalResult → ℚ) (x : RetrievalResult)
    (xs : List RetrievalResult) (h : ∀ y ∈ xs, f y ≤ f x) :
    bestIdx f (x :: xs) = 0 := by
  unfold bestIdx
  simp only [List.foldl_cons, bestStep]
  rw [bestStep_foldl_fixed f xs 1 0 (f x) h]

/-- With `lambda = 1` the MMR score of a candidate is its similarity. -/
theorem mmr_score_lambda_one (c : RetrievalResult) (selected : List RetrievalResult) :
    1 * c.similarity + (1 - 1) * diversityScore c selected = c.similarity := by
  ring

/-- On a list sorted by descending similarity, the MMR loop with
`lambda = 1` simply takes elements from the front. -/
theorem mmrLoop_one_of_sorted :
    ∀ (fuel : ℕ) (remaining selected : List RetrievalResult),
      List.Sorted simOrder remaining →
      mmrLoop 1 selected remaining fuel = selected ++ remaining.take fuel := by
  intro fuel
  induction fuel with
  | zero => intro remaining selected _; simp [mmrLoop]
  | succ n ih =>
    intro remaining selected hs
    cases remaining with
    | nil => simp [mmrLoop]
    | cons x xs =>
      rw [mmrLoop]
      rw [if_neg (by simp)]
      have hb : bestIdx
          (fun c => 1 * c.similarity + (1 - 1) * diversityScore c selected) (x :: xs) = 0 := by
        apply bestIdx_cons_of_max
        intro y hy
        simp only [mmr_score_lambda_one]
        exact (List.sorted_cons.mp hs).1 y hy
      rw [hb]
      simp only [List.getD_cons_zero, List.eraseIdx_cons_zero]
      rw [ih xs (selected ++ [x]) (List.sorted_cons.mp hs).2]
      simp [List.take_succ_cons]

/-- Claim C3: for every result list and every k, `mmrRank` with
`lambda = 1` returns exactly `topK`. -/
theorem mmrRank_lambda_one_eq_topK (results : List RetrievalResult) (k : ℕ) :
    mmrRank results k 1 = topK results k := by
  unfold mmrRank topK
  by_cases hk : k = 0
  · simp [hk]
  · by_cases hr : results = []
    · subst hr
      simp [hk, sortBySimilarity, List.insertionSort]
    · rw [if_neg (by simp [hr, hk]), if_neg hk]
      rw [mmrLoop_one_of_sorted k (sortBySimilarity results) []
        (List.sorted_insertionSort simOrder results)]
      simp

/-! ## C4: hybrid retrieval with full semantic weight is plain retrieval -/

/-- Claim C4: with `semanticWeight = 1` (keyword weight 0), hybrid
retrieval produces exactly the ranked list of plain cosine retrieval, for
every query, store and similarity values. -/
theorem retrieveNotesHybrid_weight_one_eq_retrieveNotes
    (cosSim : List ℚ → List ℚ → ℚ) (queryEmbedding : List ℚ) (query : String)
    (notes : List Note) :
    retrieveNotesHybrid cosSim queryEmbedding query notes 1
      = retrieveNotes cosSim queryEmbedding notes := by
  unfold retrieveNotesHybrid retrieveNotes
  by_cases h : notes = []
  · simp [h]
  · rw [if_neg h, if_neg h]
    dsimp only
    congr 1
    apply List.map_congr_left
    intro n _
    congr 1
    ring

/-! ## C8: strict retrieval is filtered hybrid retrieval -/

/-- Claim C8: `retrieveNotesStrict` equals hybrid retrieval with weight
0.5 restricted (in order) to the results whose text contains some query
keyword as a case-insensitive substring and whose score reaches
`minSimilarity`. -/
theorem retrieveNotesStrict_eq_filtered_hybrid
    (cosSim : List ℚ → List ℚ → ℚ) (queryEmbedding : List ℚ) (query : String)
    (notes : List Note) (minSimilarity : ℚ) :
    retrieveNotesStrict cosSim queryEmbedding query notes minSimilarity
      = (retrieveNotesHybrid cosSim queryEmbedding query notes (1 / 2)).filter
          (fun r => decide ((∃ kw ∈ extractKeywordsList query,
              strIncludes (lowerStr r.note.text) kw = true)
            ∧ minSimilarity ≤ r.similarity)) := by
  unfold retrieveNotesStrict
  apply List.filter_congr
  intro r _
  rw [Bool.decide_and]
  congr 1
  unfold hasKeywordMatch
  rw [Bool.eq_iff_iff]
  simp [List.any_eq_true]

/-! ## C6: case analysis of cosineSimilarity -/

/-- A sum of squares is nonnegative. -/
theorem sumSq_nonneg (v : List ℝ) : 0 ≤ sumSq v := by
  apply List.sum_nonneg
  intro x hx
  simp only [List.mem_map] at hx
  obtain ⟨a, _, rfl⟩ := hx
  exact mul_self_nonneg a

/-- Claim C6: `cosineSimilarity` fails with the length-mismatch error on
vectors of different lengths, returns 0 (not an error) when either
magnitude is 0, and otherwise returns the dot product divided by the
product of the magnitudes. -/
theorem cosineSimilarity_cases (vecA vecB : List ℝ) :
    (vecA.length ≠ vecB.length →
        cosineSimilarity vecA vecB = .error "Vectors must have the same length")
  ∧ (vecA.length = vecB.length → (magnitude vecA = 0 ∨ magnitude vecB = 0) →
        cosineSimilarity vecA vecB = .ok 0)
  ∧ (vecA.length = vecB.length → magnitude vecA ≠ 0 → magnitude vecB ≠ 0 →
        cosineSimilarity vecA vecB
          = .ok ((List.zipWith (fun a b => a * b) vecA vecB).sum
              / (magnitude vecA * magnitude vecB))) := by
  refine ⟨fun h => ?_, fun h hz => ?_, fun h ha hb => ?_⟩
  · unfold cosineSimilarity
    rw [if_pos h]
  · unfold cosineSimilarity dotProduct
    rw [if_neg (by simp [h]), if_neg (by simp [h])]
    simp only
    rw [if_pos hz]
  · unfold cosineSimilarity dotProduct
    rw [if_neg (by simp [h]), if_neg (by simp [h])]
    simp only
    rw [if_neg (by simp [ha, hb])]

/-- Witness for C6: a length mismatch, a zero vector, and the vectors
(3, 4) and (4, 3) whose magnitudes are 5. -/
theorem cosineSimilarity_cases_witness :
    cosineSimilarity [(3 : ℝ), 4] [1] = .error "Vectors must have the same length"
  ∧ cosineSimilarity [(0 : ℝ)] [5] = .ok 0
  ∧ cosineSimilarity [(3 : ℝ), 4] [4, 3] = .ok (24 / (5 * 5)) := by
  have hzero : magnitude [(0 : ℝ)] = 0 := by
    unfold magnitude sumSq
    norm_num
  have h34 : magnitude [(3 : ℝ), 4] = 5 := by
    unfold magnitude sumSq
    rw [show (List.map (fun x => x * x) [(3 : ℝ), 4]).sum = 5 ^ 2 by norm_num]
    exact Real.sqrt_sq (by norm_num)
  have h43 : magnitude [(4 : ℝ), 3] = 5 := by
    unfold magnitude sumSq
    rw [show (List.map (fun x => x * x) [(4 : ℝ), 3]).sum = 5 ^ 2 by norm_num]
    exact Real.sqrt_sq (by norm_num)
  refine ⟨(cosineSimilarity_cases _ _).1 (by simp),
    (cosineSimilarity_cases _ _).2.1 rfl (Or.inl hzero), ?_⟩
  have h := (cosineSimilarity_cases [(3 : ℝ), 4] [4, 3]).2.2 rfl
    (by rw [h34]; norm_num) (by rw [h43]; norm_num)
  rw [h34, h43] at h
  rw [h]
  norm_num

/-! ## C7: l2Normalize produces unit vectors -/

/-- Dividing every component by `c` divides the sum of squares by
`c * c`. -/
theorem sumSq_map_div (v : List ℝ) (c : ℝ) :
    sumSq (v.map (fun x => x / c)) = sumSq v / (c * c) := by
  induction v with
  | nil => simp [sumSq]
  | cons x xs ih =>
    simp only [sumSq, List.map_cons, List.sum_cons] at ih ⊢
    rw [ih]
    ring

/-- Claim C7: normalizing a vector of nonzero norm yields a vector of
norm exactly 1 (the float claim's tolerance is 0 in the real-number
model), and normalizing a zero vector yields the zero vector of the same
length (in particular no NaN or infinity, which do not exist in `ℝ`). -/
theorem l2Normalize_spec (vec : List ℝ) :
    (l2Norm vec ≠ 0 → l2Norm (l2Normalize vec) = 1)
  ∧ ((∀ x ∈ vec, x = 0) → l2Normalize vec = List.replicate vec.length 0) := by
  constructor
  · intro h
    have hpos : 0 < sumSq vec := by
      rcases lt_or_eq_of_le (sumSq_nonneg vec) with h' | h'
      · exact h'
      · exact absurd (by rw [l2Norm, ← h', Real.sqrt_zero]) h
    unfold l2Normalize
    rw [if_neg h]
    unfold l2Norm
    rw [sumSq_map_div, Real.mul_self_sqrt (sumSq_nonneg vec), div_self (ne_of_gt hpos),
      Real.sqrt_one]
  · intro h
    have hz : l2Norm vec = 0 := by
      unfold l2Norm
      rw [show sumSq vec = 0 from List.sum_eq_zero ?_, Real.sqrt_zero]
      intro x hx
      simp only [List.mem_map] at hx
      obtain ⟨a, ha, rfl⟩ := hx
      rw [h a ha, mul_zero]
    unfold l2Normalize
    rw [if_pos hz]
    rw [show (fun _ : ℝ => (0 : ℝ)) = Function.const ℝ (0 : ℝ) from rfl, List.map_const]

/-- Witness for C7: the vector (3, 4) has norm 5 and normalizes to a unit
vector; the zero vector of length 2 normalizes to itself. -/
theorem l2Normalize_spec_witness :
    (l2Norm [(3 : ℝ), 4] ≠ 0 ∧ l2Norm (l2Normalize [(3 : ℝ), 4]) = 1)
  ∧ l2Normalize [(0 : ℝ), 0] = List.replicate 2 0 := by
  have h5 : l2Norm [(3 : ℝ), 4] = 5 := by
    unfold l2Norm sumSq
    rw [show (List.map (fun x => x * x) [(3 : ℝ), 4]).sum = 5 ^ 2 by norm_num]
    exact Real.sqrt_sq (by norm_num)
  have hne : l2Norm [(3 : ℝ), 4] ≠ 0 := by rw [h5]; norm_num
  refine ⟨⟨hne, (l2Normalize_spec _).1 hne⟩, ?_⟩
  have h := (l2Normalize_spec [(0 : ℝ), 0]).2 (by
    intro x hx
    simp only [List.mem_cons, List.not_mem_nil, or_false] at hx
    rcases hx with h | h <;> exact h)
  simpa using h

/-! ## C9: summarize on few sentences -/

/-- Claim C9 (amended): whenever at least one and at most `numSentences`
sentences survive the split-and-filter, `summarize` returns exactly those
sentences joined by single spaces in original order, with no scoring. -/
theorem summarize_few_sentences (text : String) (numSentences : ℕ)
    (h0 : splitIntoSentences text ≠ [])
    (hle : (splitIntoSentences text).length ≤ numSentences) :
    summarize text numSentences = joinSep " " (splitIntoSentences text) := by
  unfold summarize
  rw [if_neg (by simpa [List.length_eq_zero] using h0), if_pos hle]

/-- Witness for C9: a two-sentence text summarized to 3 sentences. -/
theorem summarize_few_sentences_witness :
    splitIntoSentences "Alpha beta gamma. Delta epsilon." ≠ []
  ∧ (splitIntoSentences "Alpha beta gamma. Delta epsilon.").length ≤ 3
  ∧ summarize "Alpha beta gamma. Delta epsilon." 3
      = joinSep " " (splitIntoSentences "Alpha beta gamma. Delta epsilon.") :=
  ⟨by decide, by decide,
    summarize_few_sentences "Alpha beta gamma. Delta epsilon." 3 (by decide) (by decide)⟩

/-- Counterexample to C9 as stated: on `"abcd"` no fragment survives the
length filter, so the surviving-sentence count (0) is at most 3, yet
`summarize` returns the trimmed input text `"abcd"` rather than the empty
join of zero sentences. -/
theorem summarize_zero_sentences_counterexample :
    (splitIntoSentences "abcd").length ≤ 3
  ∧ summarize "abcd" 3 ≠ joinSep " " (splitIntoSentences "abcd") := by
  have h : splitIntoSentences "abcd" = [] := by decide
  constructor
  · rw [h]
    simp
  · unfold summarize
    rw [h]
    simp only [List.length_nil, if_pos rfl, joinSep]
    decide

/-! ## C2: the sentence scoring of extractKeySentences -/

/-- The key-phrase loop adds 1 per phrase satisfying the test. -/
theorem foldl_keyPhrase_count (l : List String) (p : String → Bool) :
    ∀ init : ℚ, l.foldl (fun sc phrase => if p phrase then sc + 1 else sc) init
      = init + ((l.filter p).length : ℚ) := by
  induction l with
  | nil => intro init; simp
  | cons x xs ih =>
    intro init
    simp only [List.foldl_cons, List.filter_cons]
    by_cases hx : p x
    · rw [if_pos hx, ih, if_pos hx]
      push_cast [List.length_cons]
      ring
    · rw [if_neg hx, ih, if_neg hx]

/-- The sequentially accumulated source score equals the claimed sum. -/
theorem codeSentenceScore_eq_spec (s : String) (i : ℕ) :
    codeSentenceScore s i = specSentenceScore s i := by
  unfold codeSentenceScore specSentenceScore
  dsimp only
  rw [foldl_keyPhrase_count]
  rcases Nat.eq_zero_or_pos (countCapWords s) with hc | hc
  · rw [hc, if_neg (lt_irrefl 0)]
    norm_num
    split_ifs <;> ring
  · rw [if_pos hc]
    split_ifs <;> ring

/-- Claim C2: whenever more than `maxSentences` fragments remain,
`extractKeySentences` returns exactly the selection described by the
spec-side scoring. -/
theorem extractKeySentences_matches_spec (text : String) (maxSentences : ℕ)
    (h : maxSentences < (keyFragments text).length) :
    extractKeySentences text maxSentences = specKeySentences text maxSentences := by
  unfold extractKeySentences specKeySentences
  dsimp only
  rw [if_neg (by omega), if_neg (by omega)]
  simp only [codeSentenceScore_eq_spec]

/-- Witness for C2: three long fragments narrowed to two. -/
theorem extractKeySentences_matches_spec_witness :
    2 < (keyFragments "alpha beta gamma one. delta epsilon two. zeta eta theta three.").length
  ∧ extractKeySentences "alpha beta gamma one. delta epsilon two. zeta eta theta three." 2
      = specKeySentences "alpha beta gamma one. delta epsilon two. zeta eta theta three." 2 :=
  ⟨by decide, extractKeySentences_matches_spec
    "alpha beta gamma one. delta epsilon two. zeta eta theta three." 2 (by decide)⟩

/-! ## C10: notes whose fragments are all short survive buildContext -/

/-- `blocksFrom` distributes over append, shifting the index base. -/
theorem blocksFrom_append (base : ℕ) (l₁ l₂ : List RetrievalResult) :
    blocksFrom base (l₁ ++ l₂) = blocksFrom base l₁ ++ blocksFrom (base + l₁.length) l₂ := by
  induction l₁ generalizing base with
  | nil => simp [blocksFrom]
  | cons x xs ih =>
    simp only [List.cons_append, blocksFrom, List.append_eq]
    rw [ih, List.length_cons, show base + 1 + xs.length = base + (xs.length + 1) by omega]

/-- A join contains each of its elements between some prefix and suffix
strings. -/
theorem joinSep_split (sep x : String) : ∀ (l₁ l₂ : List String),
    ∃ pre post, joinSep sep (l₁ ++ x :: l₂) = pre ++ x ++ post := by
  intro l₁
  induction l₁ with
  | nil =>
    intro l₂
    cases l₂ with
    | nil => exact ⟨"", "", by simp [joinSep]⟩
    | cons y ys =>
      exact ⟨"", sep ++ joinSep sep (y :: ys), by simp [joinSep, String.append_assoc]⟩
  | cons a as ih =>
    intro l₂
    obtain ⟨pre, post, hp⟩ := ih l₂
    have hstep : joinSep sep ((a :: as) ++ x :: l₂)
        = a ++ sep ++ joinSep sep (as ++ x :: l₂) := by
      cases as <;> simp [joinSep]
    exact ⟨a ++ sep ++ pre, post, by rw [hstep, hp]; simp [String.append_assoc]⟩

/-- Claim C10: a top-k note all of whose trimmed fragments have at most
10 characters is not dropped by `buildContext`: its whole trimmed text is
the single key sentence of its block, and the context string contains it
followed by a period. -/
theorem buildContext_keeps_short_fragment_note (results : List RetrievalResult) (k i : ℕ)
    (hi : i < (topK results k).length)
    (hfrag : ∀ s ∈ splitRuns isSentencePunct ((topK results k)[i].note.text).data,
      (trimStr s).length ≤ 10) :
    extractKeySentences (topK results k)[i].note.text 2
        = [trimStr (topK results k)[i].note.text]
  ∧ ∃ pre post, (buildContext results k).context
        = pre ++ (trimStr (topK results k)[i].note.text ++ ".") ++ post := by
  have hkf : keyFragments (topK results k)[i].note.text = [] := by
    unfold keyFragments
    rw [List.filter_eq_nil_iff]
    intro a ha
    simp only [List.mem_map] at ha
    obtain ⟨s, hs, rfl⟩ := ha
    simpa using hfrag s hs
  have hext : extractKeySentences (topK results k)[i].note.text 2
      = [trimStr (topK results k)[i].note.text] := by
    unfold extractKeySentences
    dsimp only
    rw [hkf]
    simp
  refine ⟨hext, ?_⟩
  have hdecomp : topK results k
      = (topK results k).take i ++ (topK results k)[i] :: (topK results k).drop (i + 1) := by
    rw [List.getElem_cons_drop]
    exact (List.take_append_drop i _).symm
  have hblocks : blocksFrom 0 (topK results k)
      = blocksFrom 0 ((topK results k).take i)
        ++ blockOf i (topK results k)[i]
          :: blocksFrom (i + 1) ((topK results k).drop (i + 1)) := by
    conv_lhs => rw [hdecomp]
    rw [blocksFrom_append]
    simp [blocksFrom, List.length_take, Nat.min_eq_left (le_of_lt hi)]
  have hblock : blockOf i (topK results k)[i]
      = ("[Source " ++ toString (i + 1) ++ " - "
          ++ relevanceLabel (topK results k)[i].similarity ++ " relevance]\n")
        ++ (trimStr (topK results k)[i].note.text ++ ".") := by
    unfold blockOf
    rw [hext]
    simp [joinSep, String.append_assoc]
  have hcontext : (buildContext results k).context
      = joinSep "\n\n" (blocksFrom 0 (topK results k)) := by
    unfold buildContext
    dsimp only
    rw [if_neg (by omega)]
  obtain ⟨pre, post, hsplit⟩ := joinSep_split "\n\n" (blockOf i (topK results k)[i])
    (blocksFrom 0 ((topK results k).take i))
    (blocksFrom (i + 1) ((topK results k).drop (i + 1)))
  refine ⟨pre ++ ("[Source " ++ toString (i + 1) ++ " - "
      ++ relevanceLabel (topK results k)[i].similarity ++ " relevance]\n"), post, ?_⟩
  rw [hcontext, hblocks, hsplit, hblock]
  simp [String.append_assoc]

/-- Witness for C10: a one-note store whose note text has only short
fragments. -/
theorem buildContext_keeps_short_fragment_note_witness :
    extractKeySentences "tiny. note" 2 = [trimStr "tiny. note"]
  ∧ ∃ pre post, (buildContext [⟨⟨1, "tiny. note", [], 0⟩, 1⟩] 3).context
      = pre ++ (trimStr "tiny. note" ++ ".") ++ post :=
  buildContext_keeps_short_fragment_note
    [⟨⟨1, "tiny. note", [], 0⟩, 1⟩] 3 0 (by decide) (by decide)
